import Mathlib

/-!
# Verification of the OpenRouter PopClip action (`action.ts`)

A shallow embedding of the request/response pipeline of `action.ts`:
JSON-like runtime values, the reply extractor, the transport result
classification, option parsing (`parseTemperature`, `parseMaxTokens`),
prompt assembly, output routing, the error classifier, and the `run`
driver as a pure function from an environment (input text, options and
the network outcome) to the list of emitted host effects plus the
terminal result.
-/

namespace OpenRouter

/-- JSON-like runtime values, as produced by `JSON.parse` (or a raw
response string). Objects are finite association lists with distinct
keys; arrays model JS arrays. -/
inductive JsonValue where
  | null
  | bool (b : Bool)
  | num (q : ℚ)
  | str (s : String)
  | arr (elems : List JsonValue)
  | obj (fields : List (String × JsonValue))

/-- `v && typeof v === "object"` in JS: a truthy value of object type,
i.e. a JSON object or array (null has object type but is falsy). -/
def isObjectLike : JsonValue → Bool
  | .obj _ => true
  | .arr _ => true
  | _ => false

/-- JS property read on a parsed-JSON value: a field of an object,
`none` (undefined) otherwise. -/
def getField (v : JsonValue) (key : String) : Option JsonValue :=
  match v with
  | .obj fields => fields.lookup key
  | _ => none

/-- JS whitespace recognized by `String.prototype.trim` and by numeric
parsing (the common set: ASCII spacing characters, NBSP, BOM). -/
def isJsSpace (c : Char) : Bool :=
  c = ' ' || c = '\t' || c = '\n' || c = '\r' || c = '\x0b' || c = '\x0c' ||
    c = ' ' || c = '﻿'

/-- `trim()` on the character list: strip `isJsSpace` from both ends. -/
def jsTrimL (l : List Char) : List Char :=
  ((l.dropWhile isJsSpace).reverse.dropWhile isJsSpace).reverse

/-- JS `String.prototype.trim`. -/
def jsTrim (s : String) : String :=
  (jsTrimL s.toList).asString

/-- One entry of a multi-part `content` array
(`action.ts` lines 52-63): a string passes through, a truthy object
contributes its `text` field when that is a string, anything else
contributes the empty string. -/
def partToText (part : JsonValue) : String :=
  match part with
  | .str s => s
  | _ =>
    if isObjectLike part then
      match getField part "text" with
      | some (JsonValue.str t) => t
      | _ => ""
    else ""

/-- `normalizeReplyContent` (`action.ts` lines 45-69). The argument is
`message.content`, which may be absent (`none`). -/
def normalizeReplyContent : Option JsonValue → String
  | some (JsonValue.str s) => jsTrim s
  | some (JsonValue.arr parts) => jsTrim (String.join (parts.map partToText))
  | _ => ""

/-- `extractReply` (`action.ts` lines 71-98): validate the completion
payload shape and return the normalized reply, throwing (modelled as
`Except.error`) on any deviation. -/
def extractReply (data : JsonValue) : Except String String :=
  if isObjectLike data = false then
    Except.error "API Error: invalid response payload"
  else
    match getField data "choices" with
    | some (JsonValue.arr choices) =>
      match choices with
      | [] => Except.error "API Error: no completion choices returned"
      | firstChoice :: _ =>
        if isObjectLike firstChoice = false then
          Except.error "API Error: invalid completion choice"
        else
          match getField firstChoice "message" with
          | some message =>
            if isObjectLike message = false then
              Except.error "API Error: invalid completion message"
            else
              let reply := normalizeReplyContent (getField message "content")
              if reply = "" then
                Except.error "API Error: empty completion message"
              else
                Except.ok reply
          | none => Except.error "API Error: invalid completion message"
    | _ => Except.error "API Error: no completion choices returned"

/-- The observable outcome of the XHR in `postJson`
(`action.ts` lines 106-138): a completed response with its status,
raw text and the result of attempting `JSON.parse` on that text
(`none` when the parse throws), or a network error, or a timeout. -/
inductive NetOutcome where
  | response (status : Nat) (text : String) (parse : Option JsonValue)
  | netError
  | timeout

/-- Resolution of the `postJson` promise: resolve with status and data,
reject with an `HttpStatusError` (status, body), or reject with a plain
`Error` carrying a message. -/
inductive PostResult where
  | ok (status : Nat) (data : JsonValue)
  | httpError (status : Nat) (body : JsonValue)
  | err (msg : String)

/-- Body value computed in `onload` (`action.ts` lines 118-127): the
raw text, replaced by the JSON parse result when the trimmed text is
non-empty and the parse succeeds. -/
def parsedBody (text : String) (parse : Option JsonValue) : JsonValue :=
  if 0 < (jsTrim text).length then
    match parse with
    | some v => v
    | none => JsonValue.str text
  else JsonValue.str text

/-- `postJson` (`action.ts` lines 100-140) as a function of the network
outcome: 2xx resolves, any other status rejects with `HttpStatusError`,
`onerror`/`ontimeout` reject with fixed `Error` messages. -/
def postJson : NetOutcome → PostResult
  | NetOutcome.response status text parse =>
    if 200 ≤ status ∧ status < 300 then
      PostResult.ok status (parsedBody text parse)
    else
      PostResult.httpError status (parsedBody text parse)
  | NetOutcome.netError => PostResult.err "Network request failed"
  | NetOutcome.timeout => PostResult.err "Request timeout"

/-- Decimal digit run to a natural number. -/
def digitsToNat (ds : List Char) : Nat :=
  ds.foldl (fun a c => 10 * a + (c.toNat - 48)) 0

/-- `10 ^ n` as a rational. -/
def pow10 (n : Nat) : ℚ :=
  ((10 ^ n : ℕ) : ℚ)

/-- Optional exponent part of a float literal (`e`/`E`, optional sign,
digits); returns the exponent and the remaining input, consuming
nothing when no well-formed exponent follows. -/
def parseExponent (cs : List Char) : Int × List Char :=
  match cs with
  | c :: rest =>
    if c = 'e' ∨ c = 'E' then
      let signed : Bool × List Char :=
        match rest with
        | '+' :: r => (false, r)
        | '-' :: r => (true, r)
        | _ => (false, rest)
      let ds := signed.2.takeWhile Char.isDigit
      if ds = [] then (0, cs)
      else
        ((if signed.1 then -(digitsToNat ds : Int) else (digitsToNat ds : Int)),
          signed.2.dropWhile Char.isDigit)
    else (0, cs)
  | [] => (0, cs)

/-- Unsigned decimal significand (`digits`, `digits.digits?`, or
`.digits`); `none` when no digits are present. -/
def parseSignificand (cs : List Char) : Option (ℚ × List Char) :=
  let ip := cs.takeWhile Char.isDigit
  let r1 := cs.dropWhile Char.isDigit
  match ip, r1 with
  | [], '.' :: r2 =>
    let fp := r2.takeWhile Char.isDigit
    if fp = [] then none
    else some ((digitsToNat fp : ℚ) / pow10 fp.length, r2.dropWhile Char.isDigit)
  | [], _ => none
  | _ :: _, '.' :: r2 =>
    let fp := r2.takeWhile Char.isDigit
    some ((digitsToNat ip : ℚ) + (digitsToNat fp : ℚ) / pow10 fp.length,
      r2.dropWhile Char.isDigit)
  | _ :: _, _ => some ((digitsToNat ip : ℚ), r1)

/-- Apply a decimal exponent to a significand (an absent exponent,
`e = 0`, leaves the significand unchanged). -/
def applyExp (q : ℚ) (e : Int) : ℚ :=
  if e = 0 then q
  else if 0 ≤ e then q * pow10 e.toNat else q / pow10 (-e).toNat

/-- A JS number as far as this pipeline observes it: NaN, the two
infinities, or an exact finite value. -/
inductive JFloat where
  | nan
  | posInf
  | negInf
  | val (q : ℚ)
deriving DecidableEq

/-- `Number.parseFloat`: skip leading whitespace, optional sign, then
`Infinity` or the longest decimal-literal prefix; NaN when none. -/
def jsParseFloat (s : String) : JFloat :=
  let cs := s.toList.dropWhile isJsSpace
  let signed : Bool × List Char :=
    match cs with
    | '+' :: r => (false, r)
    | '-' :: r => (true, r)
    | _ => (false, cs)
  if ("Infinity".toList).isPrefixOf signed.2 then
    (if signed.1 then JFloat.negInf else JFloat.posInf)
  else
    match parseSignificand signed.2 with
    | none => JFloat.nan
    | some (q, rest) =>
      let v := applyExp q (parseExponent rest).1
      JFloat.val (if signed.1 then -v else v)

/-- `Math.min` on non-NaN inputs (NaN propagates; not reached here). -/
def jsMin : JFloat → JFloat → JFloat
  | .nan, _ => .nan
  | _, .nan => .nan
  | .negInf, _ => .negInf
  | _, .negInf => .negInf
  | .posInf, b => b
  | a, .posInf => a
  | .val x, .val y => .val (min x y)

/-- `Math.max` on non-NaN inputs (NaN propagates; not reached here). -/
def jsMax : JFloat → JFloat → JFloat
  | .nan, _ => .nan
  | _, .nan => .nan
  | .posInf, _ => .posInf
  | _, .posInf => .posInf
  | .negInf, b => b
  | a, .negInf => a
  | .val x, .val y => .val (max x y)

/-- `parseTemperature` (`action.ts` lines 29-35). An absent option
parses the template string of `DEFAULT_TEMPERATURE = 1.0`, which JS
renders as `"1"`. -/
def parseTemperature (raw : Option String) : JFloat :=
  let parsed := jsParseFloat (raw.getD "1")
  if parsed = JFloat.nan then JFloat.val 1
  else jsMax (JFloat.val 0) (jsMin (JFloat.val 2) parsed)

/-- `Number.parseInt(s, 10)`: skip leading whitespace, optional sign,
then the longest run of decimal digits; `none` (NaN) when there is no
digit. -/
def jsParseInt (s : String) : Option Int :=
  let cs := s.toList.dropWhile isJsSpace
  let signed : Bool × List Char :=
    match cs with
    | '+' :: r => (false, r)
    | '-' :: r => (true, r)
    | _ => (false, cs)
  let ds := signed.2.takeWhile Char.isDigit
  if ds = [] then none
  else some (if signed.1 then -(digitsToNat ds : Int) else (digitsToNat ds : Int))

/-- `parseMaxTokens` (`action.ts` lines 37-43). An absent option parses
the template string of `DEFAULT_MAX_TOKENS = 1024`. -/
def parseMaxTokens (raw : Option String) : Int :=
  match jsParseInt (raw.getD "1024") with
  | none => 1024
  | some parsed => if parsed < 1 then 1024 else parsed

/-- ECMAScript `GetSubstitution` for a string replacement argument of a
capture-free regex: `$$` is a literal dollar, `$&` the matched text,
a dollar before a backquote the text before the match, a dollar before
a quote the text after the match; any other sequence is literal (with
no capture groups, `$` before a digit stays literal). -/
def expandRepl (matched before after : List Char) : List Char → List Char
  | [] => []
  | [c] => [c]
  | c :: d :: rest =>
    if c = '$' then
      if d = '$' then '$' :: expandRepl matched before after rest
      else if d = '&' then matched ++ expandRepl matched before after rest
      else if d = Char.ofNat 96 then before ++ expandRepl matched before after rest
      else if d = Char.ofNat 39 then after ++ expandRepl matched before after rest
      else c :: expandRepl matched before after (d :: rest)
    else c :: expandRepl matched before after (d :: rest)

/-- Left-to-right global replacement of the literal pattern `pat` with
the JS-expanded replacement `repl`, as `String.prototype.replace` with
a `g` literal regex performs it. `before` accumulates the part of the
original subject already scanned (feeding the contextual `$`-patterns);
`fuel` bounds recursion and is adequate whenever it is at least the
subject's length, since every step consumes at least one character. -/
def jsReplaceGo : Nat → List Char → List Char → List Char → List Char → List Char
  | 0, _, _, _, s => s
  | fuel + 1, pat, repl, before, s =>
    match s with
    | [] => []
    | c :: cs =>
      if pat ≠ [] ∧ pat.isPrefixOf (c :: cs) then
        expandRepl pat before ((c :: cs).drop pat.length) repl ++
          jsReplaceGo fuel pat repl (before ++ pat) ((c :: cs).drop pat.length)
      else c :: jsReplaceGo fuel pat repl (before ++ [c]) cs

/-- Modelled from the spec: plain left-to-right global replacement of
every occurrence of the literal pattern by the replacement text taken
verbatim ("substitute every occurrence with inputText"), with the same
fuel convention as `jsReplaceGo`. -/
def litReplaceGo : Nat → List Char → List Char → List Char → List Char
  | 0, _, _, s => s
  | fuel + 1, pat, repl, s =>
    match s with
    | [] => []
    | c :: cs =>
      if pat ≠ [] ∧ pat.isPrefixOf (c :: cs) then
        repl ++ litReplaceGo fuel pat repl ((c :: cs).drop pat.length)
      else c :: litReplaceGo fuel pat repl cs

/-- `s.replace(/pat/g, repl)` for a literal capture-free pattern. -/
def jsReplace (s pat repl : String) : String :=
  (jsReplaceGo s.toList.length pat.toList repl.toList [] s.toList).asString

/-- Modelled from the spec: the subject with every occurrence of the
pattern replaced by the replacement text verbatim. -/
def litReplaceAll (s pat repl : String) : String :=
  (litReplaceGo s.toList.length pat.toList repl.toList s.toList).asString

/-- `String.prototype.includes` on character lists. -/
def containsSubstrL (pat : List Char) : List Char → Bool
  | [] => pat.isPrefixOf []
  | c :: cs => pat.isPrefixOf (c :: cs) || containsSubstrL pat cs

/-- User-content derivation (`action.ts` lines 161-169): a non-blank
user prompt either has every `{{text}}` substituted by the (trimmed)
input text, or is prefixed to it with a blank line; otherwise the
input text passes through verbatim. -/
def deriveUserContent (userPrompt : Option String) (inputText : String) : String :=
  match userPrompt with
  | none => inputText
  | some p =>
    if jsTrim p = "" then inputText
    else
      let prompt := jsTrim p
      if containsSubstrL ("{{text}}".toList) prompt.toList then
        jsReplace prompt "{{text}}" inputText
      else
        prompt ++ "\n\n" ++ inputText

/-- Chat message roles used by the pipeline. -/
inductive Role where
  | system
  | user
deriving DecidableEq, BEq

/-- One chat message of the request payload. -/
structure ChatMessage where
  role : Role
  content : String
deriving DecidableEq

/-- Message-list construction (`action.ts` lines 156-170): an optional
leading system message followed by exactly one user message. -/
def buildMessages (systemPrompt userPrompt : Option String) (inputText : String) :
    List ChatMessage :=
  let sys : List ChatMessage :=
    match systemPrompt with
    | some sp => if jsTrim sp = "" then [] else [⟨Role.system, jsTrim sp⟩]
    | none => []
  sys ++ [⟨Role.user, deriveUserContent userPrompt inputText⟩]

/-- Configuration options as the action reads them (`popclip.options`);
all fields are untrusted and optional except the response-handling
selector, whose runtime value is an arbitrary string. -/
structure Options where
  apikey : String
  model : Option String
  systemPrompt : Option String
  userPrompt : Option String
  temperature : Option String
  maxTokens : Option String
  responseHandling : String

/-- `DEFAULT_MODEL` (`action.ts` line 11). -/
def DEFAULT_MODEL : String := "google/gemini-3-flash-preview"

/-- The JSON request payload (`action.ts` lines 175-180). -/
structure ChatRequest where
  model : String
  messages : List ChatMessage
  temperature : JFloat
  max_tokens : Int

/-- Request construction in `run` (`action.ts` lines 150-180). -/
def buildRequest (options : Options) (rawInput : String) : ChatRequest :=
  { model := jsTrim (options.model.getD DEFAULT_MODEL)
    messages := buildMessages options.systemPrompt options.userPrompt (jsTrim rawInput)
    temperature := parseTemperature options.temperature
    max_tokens := parseMaxTokens options.maxTokens }

/-- The value caught by `run`'s catch block: an `HttpStatusError`, any
other `Error` (network, timeout, malformed response) carrying its
message, or a non-`Error` throw. -/
inductive CaughtError where
  | httpStatus (status : Nat) (body : JsonValue)
  | jsError (msg : String)
  | other

/-- The API message mined from a status-error body
(`action.ts` lines 207-218): `body.error.message` when the body is a
truthy object whose `error` field is a truthy object with a string
`message`; the body itself when it is a string; `none` otherwise. -/
def statusApiMessage (data : JsonValue) : Option String :=
  if isObjectLike data then
    match getField data "error" with
    | some apiError =>
      if isObjectLike apiError then
        match getField apiError "message" with
        | some (JsonValue.str m) => some m
        | _ => none
      else none
    | none => none
  else
    match data with
    | JsonValue.str s => some s
    | _ => none

/-- The error classifier of `run`'s catch block
(`action.ts` lines 202-223). -/
def classify : CaughtError → String
  | CaughtError.httpStatus status data =>
    "API Error " ++ toString status ++ ": " ++ ((statusApiMessage data).getD "Request failed")
  | CaughtError.jsError msg => "Network/Error: " ++ msg
  | CaughtError.other => "Unknown Error"

/-- Host effects the action can emit: the diagnostic `print` and the
three output sinks. -/
inductive Effect where
  | print (s : String)
  | copyText (s : String)
  | showText (s : String) (preview : Bool)
  | pasteText (s : String)
deriving DecidableEq

/-- Output routing (`action.ts` lines 192-200): `copy`, `show` and
`replace` send the reply to their sink; every other mode appends the
reply to the original (untrimmed) input and pastes. -/
def routeOutput (mode reply originalInput : String) : Effect :=
  if mode = "copy" then Effect.copyText reply
  else if mode = "show" then Effect.showText reply true
  else if mode = "replace" then Effect.pasteText reply
  else Effect.pasteText (originalInput ++ "\n\n" ++ reply)

/-- One invocation's environment: the selected text, the options, and
the outcome of the single network round trip. -/
structure Env where
  inputText : String
  options : Options
  net : NetOutcome

/-- `run` (`action.ts` lines 142-228) as a pure function from the
environment to the emitted effects and the terminal result. The
API-key guard precedes the try block; inside it, a resolved 2xx
response flows through `extractReply` and `routeOutput`, and every
caught failure is classified, printed, and re-thrown with the
classified message. -/
def run (env : Env) : List Effect × Except String Unit :=
  if jsTrim env.options.apikey = "" then
    ([], Except.error "Settings error: API Key is required")
  else
    match postJson env.net with
    | PostResult.ok _ data =>
      match extractReply data with
      | Except.ok reply =>
        ([routeOutput env.options.responseHandling reply env.inputText], Except.ok ())
      | Except.error e =>
        ([Effect.print (classify (CaughtError.jsError e))],
          Except.error (classify (CaughtError.jsError e)))
    | PostResult.httpError status body =>
      ([Effect.print (classify (CaughtError.httpStatus status body))],
        Except.error (classify (CaughtError.httpStatus status body)))
    | PostResult.err e =>
      ([Effect.print (classify (CaughtError.jsError e))],
        Except.error (classify (CaughtError.jsError e)))

/-! ## Helper lemmas about trimming -/

lemma jsTrimL_eq_rdropWhile (l : List Char) :
    jsTrimL l = (l.dropWhile isJsSpace).rdropWhile isJsSpace := rfl

lemma dropWhile_rdropWhile_fix (p : Char → Bool) (A : List Char)
    (hA : A.dropWhile p = A) :
    (A.rdropWhile p).dropWhile p = A.rdropWhile p := by
  rcases hpre : A.rdropWhile p with _ | ⟨c, r⟩
  · rfl
  · obtain ⟨t, ht⟩ := List.rdropWhile_prefix p (l := A)
    rw [hpre] at ht
    by_cases hp : p c
    · exfalso
      rw [← ht, List.cons_append, List.dropWhile_cons, if_pos hp] at hA
      have hlen := congrArg List.length hA
      have hle := (List.dropWhile_sublist (l := r ++ t) (p := p)).length_le
      simp [List.length_append] at hlen hle
      omega
    · simp [List.dropWhile_cons, hp]

lemma jsTrimL_idem (l : List Char) : jsTrimL (jsTrimL l) = jsTrimL l := by
  rw [jsTrimL_eq_rdropWhile, jsTrimL_eq_rdropWhile,
    dropWhile_rdropWhile_fix isJsSpace (l.dropWhile isJsSpace)
      (List.dropWhile_idempotent isJsSpace l),
    List.rdropWhile_idempotent]

lemma toList_asString (l : List Char) : l.asString.toList = l := rfl

lemma jsTrim_idem (s : String) : jsTrim (jsTrim s) = jsTrim s := by
  show (jsTrimL (jsTrimL s.toList).asString.toList).asString = (jsTrimL s.toList).asString
  rw [toList_asString, jsTrimL_idem]

/-! ## C1: reply extraction -/

/-- The required response shape per the spec's reply-extractor
contract: a truthy object with a non-empty `choices` array whose first
element is a truthy object with a truthy-object `message` whose
`content` is a string or an array, and whose normalized content is
non-empty after trimming. -/
def replyWellFormed (data : JsonValue) : Bool :=
  isObjectLike data &&
    match getField data "choices" with
    | some (JsonValue.arr choices) =>
      match choices with
      | [] => false
      | firstChoice :: _ =>
        isObjectLike firstChoice &&
          match getField firstChoice "message" with
          | some message =>
            isObjectLike message &&
              match getField message "content" with
              | some (JsonValue.str s) => decide (jsTrim s ≠ "")
              | some (JsonValue.arr parts) =>
                decide (jsTrim (String.join (parts.map partToText)) ≠ "")
              | _ => false
          | none => false
    | _ => false

/-- C1: any deviation of the response body from the required shape
(body not a truthy object, missing/empty/invalid `choices`, first
choice not a truthy object, missing or non-object `message`, `content`
neither a string nor an array), or a normalized content that is empty
after trimming, makes `extractReply` fail; otherwise it returns a
trimmed non-empty string. -/
theorem extractReply_shape (data : JsonValue) :
    ((∃ s, extractReply data = Except.ok s) ↔ replyWellFormed data = true)
  ∧ (∀ s, extractReply data = Except.ok s → jsTrim s = s ∧ s ≠ "") := by
  by_cases h0 : isObjectLike data
  · rcases hc : getField data "choices" with _ | v
    · simp [extractReply, replyWellFormed, h0, hc]
    · cases v with
      | arr choices =>
        cases choices with
        | nil => simp [extractReply, replyWellFormed, h0, hc]
        | cons firstChoice rest =>
          by_cases h1 : isObjectLike firstChoice
          · rcases hm : getField firstChoice "message" with _ | msg
            · simp [extractReply, replyWellFormed, h0, hc, h1, hm]
            · by_cases h2 : isObjectLike msg
              · rcases hcon : getField msg "content" with _ | cv
                · simp [extractReply, replyWellFormed, h0, hc, h1, hm, h2, hcon,
                    normalizeReplyContent]
                · cases cv with
                  | str s =>
                    by_cases hs : jsTrim s = ""
                    · simp [extractReply, replyWellFormed, h0, hc, h1, hm, h2, hcon,
                        normalizeReplyContent, hs]
                    · simp [extractReply, replyWellFormed, h0, hc, h1, hm, h2, hcon,
                        normalizeReplyContent, hs, jsTrim_idem]
                  | arr parts =>
                    by_cases hj : jsTrim (String.join (parts.map partToText)) = ""
                    · simp [extractReply, replyWellFormed, h0, hc, h1, hm, h2, hcon,
                        normalizeReplyContent, hj]
                    · simp [extractReply, replyWellFormed, h0, hc, h1, hm, h2, hcon,
                        normalizeReplyContent, hj, jsTrim_idem]
                  | null =>
                    simp [extractReply, replyWellFormed, h0, hc, h1, hm, h2, hcon,
                      normalizeReplyContent]
                  | bool b =>
                    simp [extractReply, replyWellFormed, h0, hc, h1, hm, h2, hcon,
                      normalizeReplyContent]
                  | num q =>
                    simp [extractReply, replyWellFormed, h0, hc, h1, hm, h2, hcon,
                      normalizeReplyContent]
                  | obj fields =>
                    simp [extractReply, replyWellFormed, h0, hc, h1, hm, h2, hcon,
                      normalizeReplyContent]
              · simp [extractReply, replyWellFormed, h0, hc, h1, hm, h2]
          · simp [extractReply, replyWellFormed, h0, hc, h1]
      | null => simp [extractReply, replyWellFormed, h0, hc]
      | bool b => simp [extractReply, replyWellFormed, h0, hc]
      | num q => simp [extractReply, replyWellFormed, h0, hc]
      | str s => simp [extractReply, replyWellFormed, h0, hc]
      | obj fields => simp [extractReply, replyWellFormed, h0, hc]
  · simp [extractReply, replyWellFormed, h0]

/-- A structurally valid completion payload used to instantiate
`extractReply_shape`. -/
def sampleReply : JsonValue :=
  JsonValue.obj [("choices", JsonValue.arr
    [JsonValue.obj [("message", JsonValue.obj [("content", JsonValue.str "hi")])]])]

/-- Witness for C1 at a concrete well-formed payload. -/
theorem extractReply_shape_w : jsTrim "hi" = "hi" ∧ "hi" ≠ "" :=
  (extractReply_shape sampleReply).2 "hi" (by rfl)

/-! ## C2: transport status handling -/

lemma length_pos_of_ne_empty {s : String} (h : s ≠ "") : 0 < s.length := by
  cases s with
  | mk data =>
    cases data with
    | nil => exact absurd rfl h
    | cons c cs => simp [String.length]

/-- C2: a completed response with a 2xx status resolves as a success
carrying the status and body, any other status rejects with a status
error carrying the status and body; the body is the JSON parse of the
response text when that parse succeeds, and the raw text otherwise
(parse failure never fails the transport step). -/
theorem postJson_spec (status : Nat) (text : String) (parse : Option JsonValue) :
    (200 ≤ status → status < 300 →
      postJson (NetOutcome.response status text parse) =
        PostResult.ok status (parsedBody text parse))
  ∧ (¬ (200 ≤ status ∧ status < 300) →
      postJson (NetOutcome.response status text parse) =
        PostResult.httpError status (parsedBody text parse))
  ∧ (∀ v, parse = some v → jsTrim text ≠ "" → parsedBody text parse = v)
  ∧ (parse = none → parsedBody text parse = JsonValue.str text) := by
  refine ⟨?_, ?_, ?_, ?_⟩
  · intro h1 h2
    simp [postJson, h1, h2]
  · intro h
    simp [postJson, h]
  · rintro v rfl ht
    simp [parsedBody, length_pos_of_ne_empty ht]
  · rintro rfl
    unfold parsedBody
    split <;> rfl

/-- Witness for C2 at a concrete 2xx response with a parsable body. -/
theorem postJson_spec_w :
    postJson (NetOutcome.response 200 "{}" (some (JsonValue.obj []))) =
      PostResult.ok 200 (parsedBody "{}" (some (JsonValue.obj [])))
  ∧ parsedBody "{}" (some (JsonValue.obj [])) = JsonValue.obj [] :=
  ⟨(postJson_spec 200 "{}" (some (JsonValue.obj []))).1 (by decide) (by decide),
   (postJson_spec 200 "{}" (some (JsonValue.obj []))).2.2.1 (JsonValue.obj []) rfl
     (by decide)⟩

/-! ## C3: status-error classification -/

/-- C3: a status-error failure with status `s` and body `b` classifies
to `"API Error {s}: {m}"` where `m` is `b.error.message` when `b` is a
truthy object whose `error` field is a truthy object with a string
`message`, else `b` itself when `b` is a string, else
`"Request failed"`; in particular a 429 with body
`{"error":{"message":"rate limited"}}` classifies to
`"API Error 429: rate limited"`. -/
theorem classifyStatus_spec (s : Nat) (b : JsonValue) :
    (∀ e m, isObjectLike b = true → getField b "error" = some e →
        isObjectLike e = true → getField e "message" = some (JsonValue.str m) →
        classify (CaughtError.httpStatus s b) = "API Error " ++ toString s ++ ": " ++ m)
  ∧ (∀ t, b = JsonValue.str t →
      classify (CaughtError.httpStatus s b) = "API Error " ++ toString s ++ ": " ++ t)
  ∧ ((¬ ∃ t, b = JsonValue.str t) →
      (¬ ∃ e m, getField b "error" = some e ∧ isObjectLike e = true ∧
        getField e "message" = some (JsonValue.str m)) →
      classify (CaughtError.httpStatus s b) =
        "API Error " ++ toString s ++ ": " ++ "Request failed")
  ∧ classify (CaughtError.httpStatus 429 (JsonValue.obj
      [("error", JsonValue.obj [("message", JsonValue.str "rate limited")])])) =
      "API Error 429: rate limited" := by
  refine ⟨?_, ?_, ?_, by rfl⟩
  · intro e m h0 he h1 hm
    simp [classify, statusApiMessage, h0, he, h1, hm]
  · rintro t rfl
    simp [classify, statusApiMessage, isObjectLike]
  · intro hstr hmsg
    rcases b with _ | bb | q | t | elems | fields
    · simp [classify, statusApiMessage, isObjectLike]
    · simp [classify, statusApiMessage, isObjectLike]
    · simp [classify, statusApiMessage, isObjectLike]
    · exact absurd ⟨t, rfl⟩ hstr
    · simp [classify, statusApiMessage, isObjectLike, getField]
    · rcases he : getField (JsonValue.obj fields) "error" with _ | e
      · simp [classify, statusApiMessage, isObjectLike, he]
      · by_cases h1 : isObjectLike e
        · rcases hm : getField e "message" with _ | mv
          · simp [classify, statusApiMessage, isObjectLike, he, h1, hm]
          · cases mv with
            | str m => exact absurd ⟨e, m, he, h1, hm⟩ hmsg
            | null => simp [classify, statusApiMessage, isObjectLike, he, h1, hm]
            | bool x => simp [classify, statusApiMessage, isObjectLike, he, h1, hm]
            | num x => simp [classify, statusApiMessage, isObjectLike, he, h1, hm]
            | arr x => simp [classify, statusApiMessage, isObjectLike, he, h1, hm]
            | obj x => simp [classify, statusApiMessage, isObjectLike, he, h1, hm]
        · simp [classify, statusApiMessage, he, h1]

/-- Witness for C3 at a concrete status-error body. -/
theorem classifyStatus_spec_w :
    classify (CaughtError.httpStatus 404 (JsonValue.obj
      [("error", JsonValue.obj [("message", JsonValue.str "not found")])])) =
      "API Error " ++ toString 404 ++ ": " ++ "not found" :=
  (classifyStatus_spec 404 (JsonValue.obj
      [("error", JsonValue.obj [("message", JsonValue.str "not found")])])).1
    (JsonValue.obj [("message", JsonValue.str "not found")]) "not found"
    rfl rfl rfl rfl

/-! ## C4: failure propagation -/

/-- Options with a blank API key. -/
def noKeyOptions : Options :=
  { apikey := "  ", model := none, systemPrompt := none, userPrompt := none,
    temperature := none, maxTokens := none, responseHandling := "append" }

/-- An environment whose API key is blank. -/
def noKeyEnv : Env :=
  { inputText := "hello", options := noKeyOptions, net := NetOutcome.netError }

/-- Counterexample to C4 as stated: with a blank API key the invocation
raises "Settings error: API Key is required" but emits no effect at all
— in particular no diagnostic print — because the key guard sits before
the try/catch; moreover that message is not in the classifier's format
for an error (the classifier would prefix "Network/Error: "). -/
theorem run_noKey_cex :
    run noKeyEnv = ([], Except.error "Settings error: API Key is required")
  ∧ "Settings error: API Key is required" ≠
      classify (CaughtError.jsError "Settings error: API Key is required") := by
  exact ⟨by rfl, by decide⟩

/-- C4 (amended): for every failed invocation that passes the API-key
guard, exactly one error message is produced, it is a classifier
output, and that same message is both printed to the diagnostic channel
and raised as the terminal failure; a blank API key instead raises
"Settings error: API Key is required" directly, with no print and no
classifier formatting. -/
theorem run_failure_spec (env : Env) :
    (jsTrim env.options.apikey = "" →
      run env = ([], Except.error "Settings error: API Key is required"))
  ∧ (jsTrim env.options.apikey ≠ "" →
      ∀ m, (run env).2 = Except.error m →
        (run env).1 = [Effect.print m] ∧ ∃ e, m = classify e) := by
  constructor
  · intro h
    simp [run, h]
  · intro h m hm
    rcases henv : postJson env.net with ⟨st, data⟩ | ⟨st, body⟩ | e
    · cases hex : extractReply data with
      | ok r =>
        have hr : (run env).2 = Except.ok () := by simp [run, h, henv, hex]
        rw [hr] at hm
        simp at hm
      | error e' =>
        have h1 : (run env).1 = [Effect.print (classify (CaughtError.jsError e'))] := by
          simp [run, h, henv, hex]
        have h2 : (run env).2 = Except.error (classify (CaughtError.jsError e')) := by
          simp [run, h, henv, hex]
        rw [h2] at hm
        simp only [Except.error.injEq] at hm
        subst hm
        exact ⟨h1, CaughtError.jsError e', rfl⟩
    · have h1 : (run env).1 = [Effect.print (classify (CaughtError.httpStatus st body))] := by
        simp [run, h, henv]
      have h2 : (run env).2 = Except.error (classify (CaughtError.httpStatus st body)) := by
        simp [run, h, henv]
      rw [h2] at hm
      simp only [Except.error.injEq] at hm
      subst hm
      exact ⟨h1, CaughtError.httpStatus st body, rfl⟩
    · have h1 : (run env).1 = [Effect.print (classify (CaughtError.jsError e))] := by
        simp [run, h, henv]
      have h2 : (run env).2 = Except.error (classify (CaughtError.jsError e)) := by
        simp [run, h, henv]
      rw [h2] at hm
      simp only [Except.error.injEq] at hm
      subst hm
      exact ⟨h1, CaughtError.jsError e, rfl⟩

/-- Options with a usable API key and default mode. -/
def keyedOptions : Options :=
  { apikey := "k", model := none, systemPrompt := none, userPrompt := none,
    temperature := none, maxTokens := none, responseHandling := "append" }

/-- An environment whose network call times out. -/
def timeoutEnv : Env :=
  { inputText := "hello", options := keyedOptions, net := NetOutcome.timeout }

/-- Witness for C4 (amended) at a concrete timed-out invocation. -/
theorem run_failure_spec_w :
    (run timeoutEnv).1 = [Effect.print "Network/Error: Request timeout"]
  ∧ ∃ e, "Network/Error: Request timeout" = classify e :=
  (run_failure_spec timeoutEnv).2 (by decide) "Network/Error: Request timeout" (by rfl)

/-! ## C6: output routing -/

/-- C6: the router sends the reply to exactly one sink: `copy` to the
clipboard sink, `show` to the preview sink with preview framing,
`replace` to the paste sink alone, and any other mode (including
`append` and unknown values) to the paste sink as original input, a
blank line, then the reply — never failing. -/
theorem routeOutput_spec (mode reply originalInput : String) :
    (mode = "copy" → routeOutput mode reply originalInput = Effect.copyText reply)
  ∧ (mode = "show" → routeOutput mode reply originalInput = Effect.showText reply true)
  ∧ (mode = "replace" → routeOutput mode reply originalInput = Effect.pasteText reply)
  ∧ (mode ≠ "copy" → mode ≠ "show" → mode ≠ "replace" →
      routeOutput mode reply originalInput =
        Effect.pasteText (originalInput ++ "\n\n" ++ reply)) := by
  refine ⟨?_, ?_, ?_, ?_⟩
  · rintro rfl
    simp [routeOutput]
  · rintro rfl
    simp [routeOutput]
  · rintro rfl
    simp [routeOutput]
  · intro h1 h2 h3
    simp [routeOutput, h1, h2, h3]

/-- Witness for C6: the `copy` mode and an out-of-set mode. -/
theorem routeOutput_spec_w :
    routeOutput "copy" "X" "orig" = Effect.copyText "X"
  ∧ routeOutput "bogus" "X" "orig" = Effect.pasteText ("orig" ++ "\n\n" ++ "X") :=
  ⟨(routeOutput_spec "copy" "X" "orig").1 rfl,
   (routeOutput_spec "bogus" "X" "orig").2.2.2 (by decide) (by decide) (by decide)⟩

/-! ## C7: message-list shape -/

lemma system_beq_system : (Role.system == Role.system) = true := rfl

lemma user_beq_system : (Role.user == Role.system) = false := rfl

lemma system_beq_user : (Role.system == Role.user) = false := rfl

lemma user_beq_user : (Role.user == Role.user) = true := rfl

/-- C7: the assembled message list holds a system message zero or one
times — exactly once, and first, when the trimmed system prompt is
non-empty — and exactly one user message, always last. -/
theorem buildMessages_spec (sp up : Option String) (it : String) :
    (buildMessages sp up it).countP (fun m => m.role == Role.system) ≤ 1
  ∧ ((∃ s, sp = some s ∧ jsTrim s ≠ "") →
      (buildMessages sp up it).countP (fun m => m.role == Role.system) = 1 ∧
        ∃ c, (buildMessages sp up it).head? = some ⟨Role.system, c⟩)
  ∧ ((¬ ∃ s, sp = some s ∧ jsTrim s ≠ "") →
      (buildMessages sp up it).countP (fun m => m.role == Role.system) = 0)
  ∧ (buildMessages sp up it).countP (fun m => m.role == Role.user) = 1
  ∧ (buildMessages sp up it).getLast? = some ⟨Role.user, deriveUserContent up it⟩ := by
  rcases sp with _ | s
  · refine ⟨?_, ?_, ?_, ?_, ?_⟩
    · simp [buildMessages, List.countP_cons, system_beq_system, user_beq_system, system_beq_user, user_beq_user]
    · rintro ⟨s, hs, -⟩
      cases hs
    · intro h
      simp [buildMessages, List.countP_cons, system_beq_system, user_beq_system, system_beq_user, user_beq_user]
    · simp [buildMessages, List.countP_cons, system_beq_system, user_beq_system, system_beq_user, user_beq_user]
    · simp [buildMessages]
  · by_cases h : jsTrim s = ""
    · refine ⟨?_, ?_, ?_, ?_, ?_⟩
      · simp [buildMessages, h, List.countP_cons, system_beq_system, user_beq_system, system_beq_user, user_beq_user]
      · rintro ⟨s', hs', hne⟩
        cases hs'
        exact absurd h hne
      · intro h'
        simp [buildMessages, h, List.countP_cons, system_beq_system, user_beq_system, system_beq_user, user_beq_user]
      · simp [buildMessages, h, List.countP_cons, system_beq_system, user_beq_system, system_beq_user, user_beq_user]
      · simp [buildMessages, h]
    · refine ⟨?_, ?_, ?_, ?_, ?_⟩
      · simp [buildMessages, h, List.countP_cons, system_beq_system, user_beq_system, system_beq_user, user_beq_user]
      · intro h'
        exact ⟨by simp [buildMessages, h, List.countP_cons, system_beq_system, user_beq_system, system_beq_user, user_beq_user], jsTrim s,
          by simp [buildMessages, h]⟩
      · intro h'
        exact absurd ⟨s, rfl, h⟩ h'
      · simp [buildMessages, h, List.countP_cons, system_beq_system, user_beq_system, system_beq_user, user_beq_user]
      · simp [buildMessages, h]

/-- Witness for C7 with a non-blank system prompt. -/
theorem buildMessages_spec_w :
    (buildMessages (some "sys") none "hi").countP (fun m => m.role == Role.system) = 1
  ∧ ∃ c, (buildMessages (some "sys") none "hi").head? = some ⟨Role.system, c⟩ :=
  (buildMessages_spec (some "sys") none "hi").2.1 ⟨"sys", rfl, by decide⟩

/-! ## C8: temperature normalization -/

/-- C8: `parseTemperature` always yields a finite number in `[0, 2]`;
an absent or unparsable input yields exactly `1`; a parsed finite value
is clamped into `[0, 2]` (infinities clamp to the nearer bound). -/
theorem parseTemperature_spec (raw : Option String) :
    (∃ q, parseTemperature raw = JFloat.val q ∧ 0 ≤ q ∧ q ≤ 2)
  ∧ (raw = none → parseTemperature raw = JFloat.val 1)
  ∧ (∀ s, raw = some s → jsParseFloat s = JFloat.nan → parseTemperature raw = JFloat.val 1)
  ∧ (∀ s q, raw = some s → jsParseFloat s = JFloat.val q →
      parseTemperature raw = JFloat.val (max 0 (min 2 q)))
  ∧ (∀ s, raw = some s → jsParseFloat s = JFloat.posInf → parseTemperature raw = JFloat.val 2)
  ∧ (∀ s, raw = some s → jsParseFloat s = JFloat.negInf →
      parseTemperature raw = JFloat.val 0) := by
  refine ⟨?_, ?_, ?_, ?_, ?_, ?_⟩
  · cases hp : jsParseFloat (raw.getD "1") with
    | nan => exact ⟨1, by simp [parseTemperature, hp], by norm_num, by norm_num⟩
    | posInf =>
      refine ⟨2, ?_, by norm_num, by norm_num⟩
      simp [parseTemperature, hp, jsMin, jsMax]
    | negInf =>
      refine ⟨0, ?_, by norm_num, by norm_num⟩
      simp [parseTemperature, hp, jsMin, jsMax]
    | val q =>
      refine ⟨max 0 (min 2 q), ?_, le_max_left 0 _, ?_⟩
      · simp [parseTemperature, hp, jsMin, jsMax]
      · exact max_le (by norm_num) (min_le_left 2 q)
  · rintro rfl
    decide
  · rintro s rfl hp
    simp [parseTemperature, hp]
  · rintro s q rfl hp
    simp [parseTemperature, hp, jsMin, jsMax]
  · rintro s rfl hp
    simp [parseTemperature, hp, jsMin, jsMax]
  · rintro s rfl hp
    simp [parseTemperature, hp, jsMin, jsMax]

/-- Witness for C8: an unparsable input defaults to 1; a parsed value
is clamped. -/
theorem parseTemperature_spec_w :
    parseTemperature (some "abc") = JFloat.val 1
  ∧ parseTemperature (some "3") = JFloat.val (max 0 (min 2 3)) :=
  ⟨(parseTemperature_spec (some "abc")).2.2.1 "abc" rfl (by decide),
   (parseTemperature_spec (some "3")).2.2.2.1 "3" 3 rfl (by decide)⟩

/-! ## C9: max-tokens normalization -/

/-- C9: `parseMaxTokens` always yields an integer at least `1`; absent,
unparsable, or below-1 input yields exactly `1024`; any other parsed
integer passes through with no upper clamp. -/
theorem parseMaxTokens_spec (raw : Option String) :
    1 ≤ parseMaxTokens raw
  ∧ (raw = none → parseMaxTokens raw = 1024)
  ∧ (∀ s, raw = some s → jsParseInt s = none → parseMaxTokens raw = 1024)
  ∧ (∀ s n, raw = some s → jsParseInt s = some n → n < 1 → parseMaxTokens raw = 1024)
  ∧ (∀ s n, raw = some s → jsParseInt s = some n → 1 ≤ n → parseMaxTokens raw = n) := by
  refine ⟨?_, ?_, ?_, ?_, ?_⟩
  · rcases hp : jsParseInt (raw.getD "1024") with _ | n
    · simp [parseMaxTokens, hp]
    · by_cases h : n < 1
      · simp [parseMaxTokens, hp, h]
      · simp [parseMaxTokens, hp, h]
        omega
  · rintro rfl
    decide
  · rintro s rfl hp
    simp [parseMaxTokens, hp]
  · rintro s n rfl hp h
    simp [parseMaxTokens, hp, h]
  · rintro s n rfl hp h
    simp [parseMaxTokens, hp]
    omega

/-- Witness for C9: an unparsable input and a large passthrough. -/
theorem parseMaxTokens_spec_w :
    parseMaxTokens (some "oops") = 1024 ∧ parseMaxTokens (some "2048") = 2048 :=
  ⟨(parseMaxTokens_spec (some "oops")).2.2.1 "oops" rfl (by decide),
   (parseMaxTokens_spec (some "2048")).2.2.2.2 "2048" 2048 rfl (by decide) (by decide)⟩

/-! ## C10: malformed 2xx bodies surface with the Network/Error prefix -/

/-- C10: a 2xx response whose body is rejected by `extractReply`
surfaces through the generic `Error` branch of the classifier, so the
terminal message carries the "Network/Error: " prefix around the
extractor's message, not a distinct malformed-response format. -/
theorem run_extract_error_spec (env : Env) (s : Nat) (t : String)
    (p : Option JsonValue) (e : String) :
    jsTrim env.options.apikey ≠ "" →
    env.net = NetOutcome.response s t p →
    200 ≤ s → s < 300 →
    extractReply (parsedBody t p) = Except.error e →
    run env = ([Effect.print ("Network/Error: " ++ e)],
      Except.error ("Network/Error: " ++ e)) := by
  intro hk hnet h1 h2 hex
  simp [run, hk, hnet, postJson, h1, h2, hex, classify]

/-- The 2xx environment whose body is `{"choices":[]}`. -/
def emptyChoicesEnv : Env :=
  { inputText := "hello", options := keyedOptions,
    net := NetOutcome.response 200 "\x7b\"choices\":[]\x7d"
      (some (JsonValue.obj [("choices", JsonValue.arr [])])) }

/-- Witness for C10: body `{"choices":[]}` yields the message
"Network/Error: API Error: no completion choices returned". -/
theorem run_extract_error_spec_w :
    run emptyChoicesEnv =
      ([Effect.print ("Network/Error: " ++ "API Error: no completion choices returned")],
        Except.error ("Network/Error: " ++ "API Error: no completion choices returned")) :=
  run_extract_error_spec emptyChoicesEnv 200 "\x7b\"choices\":[]\x7d"
    (some (JsonValue.obj [("choices", JsonValue.arr [])]))
    "API Error: no completion choices returned"
    (by decide) rfl (by decide) (by decide) (by rfl)

/-! ## C5: user-content derivation -/

lemma expandRepl_no_dollar (m b a : List Char) (r : List Char)
    (h : ∀ c ∈ r, c ≠ '$') : expandRepl m b a r = r := by
  induction r with
  | nil => rfl
  | cons c tail ih =>
    cases tail with
    | nil => rfl
    | cons d rest =>
      have hc : c ≠ '$' := h c (by simp)
      have htail : ∀ x ∈ d :: rest, x ≠ '$' :=
        fun x hx => h x (List.mem_cons_of_mem c hx)
      simp [expandRepl, hc, ih htail]

lemma replaceGo_no_dollar (pat repl : List Char) (h : ∀ c ∈ repl, c ≠ '$') :
    ∀ (fuel : Nat) (before s : List Char),
      jsReplaceGo fuel pat repl before s = litReplaceGo fuel pat repl s := by
  intro fuel
  induction fuel with
  | zero => intro before s; rfl
  | succ n ih =>
    intro before s
    cases s with
    | nil => rfl
    | cons c cs =>
      simp only [jsReplaceGo, litReplaceGo]
      by_cases hp : pat ≠ [] ∧ pat.isPrefixOf (c :: cs)
      · rw [if_pos hp, if_pos hp, expandRepl_no_dollar _ _ _ _ h, ih]
      · rw [if_neg hp, if_neg hp, ih]

/-- C5 (amended): with no or a blank user prompt the content is the
input text verbatim; a non-blank prompt without the token is prefixed
to the input text with a blank line; a non-blank prompt containing
`{{text}}` has every occurrence replaced following JavaScript
string-replacement semantics, which coincides with literal replacement
by the input text whenever the input text contains no `$`. -/
theorem userContent_spec (up : Option String) (it : String) :
    (up = none → deriveUserContent up it = it)
  ∧ (∀ p, up = some p → jsTrim p = "" → deriveUserContent up it = it)
  ∧ (∀ p, up = some p → jsTrim p ≠ "" →
      containsSubstrL ("{{text}}".toList) (jsTrim p).toList = false →
      deriveUserContent up it = jsTrim p ++ "\n\n" ++ it)
  ∧ (∀ p, up = some p → jsTrim p ≠ "" →
      containsSubstrL ("{{text}}".toList) (jsTrim p).toList = true →
      (∀ c ∈ it.toList, c ≠ '$') →
      deriveUserContent up it = litReplaceAll (jsTrim p) "{{text}}" it) := by
  refine ⟨?_, ?_, ?_, ?_⟩
  · rintro rfl
    rfl
  · rintro p rfl h
    simp [deriveUserContent, h]
  · rintro p rfl h hc
    have hc' : ¬ containsSubstrL ("{{text}}".toList) (jsTrim p).toList = true := by
      rw [hc]
      exact Bool.false_ne_true
    simp only [deriveUserContent]
    rw [if_neg h, if_neg hc']
  · rintro p rfl h hc hd
    simp only [deriveUserContent]
    rw [if_neg h, if_pos hc]
    exact congrArg List.asString
      (replaceGo_no_dollar ("{{text}}".toList) it.toList hd
        (jsTrim p).toList.length [] (jsTrim p).toList)

/-- Counterexample to C5 as stated: with prompt `"X{{text}}Y"` and
(trimmed) selected text `"$&"`, the code produces `"X{{text}}Y"` — the
`$&` inside the replacement string is a JS replacement pattern that
re-inserts the matched token — while substituting every `{{text}}` by
the input text verbatim would produce `"X$&Y"`. -/
theorem userContent_cex :
    deriveUserContent (some "X{{text}}Y") "$&" = "X{{text}}Y"
  ∧ litReplaceAll "X{{text}}Y" "{{text}}" "$&" = "X$&Y"
  ∧ deriveUserContent (some "X{{text}}Y") "$&" ≠
      litReplaceAll "X{{text}}Y" "{{text}}" "$&" :=
  ⟨by decide, by decide, by decide⟩

/-- Witness for C5 (amended): the spec's own round-trip example, where
the input text is `$`-free and JS replacement equals literal
replacement. -/
theorem userContent_spec_w :
    deriveUserContent (some "Translate: {{text}}!") "hello" =
      litReplaceAll "Translate: {{text}}!" "{{text}}" "hello"
  ∧ litReplaceAll "Translate: {{text}}!" "{{text}}" "hello" = "Translate: hello!" :=
  ⟨(userContent_spec (some "Translate: {{text}}!") "hello").2.2.2
      "Translate: {{text}}!" rfl (by decide) (by decide) (by decide),
   by decide⟩

end OpenRouter
